import Mathlib

/-
Shallow embedding of the market-data service in
`src/app/services/binance.service.ts` (class `BinanceService`), together
with theorems checking the specification's claims about it.

Untyped JSON-ish runtime values are modelled by `JValue`; JavaScript
string case conversion (`toLowerCase` / `toUpperCase`) is modelled by
explicit ASCII case maps, which agree with JavaScript on the ASCII symbol
strings this service handles.
-/

namespace CryptoPrice

/-- A runtime JSON value as the service sees it: a number, a string, or
`undefined` (the result of reading an absent field / out-of-range index). -/
inductive JValue where
  | num (n : Int)
  | str (s : String)
  | undef
deriving DecidableEq, Repr

/-- ASCII lower-casing of one character, the behaviour of JavaScript
`toLowerCase` on the ASCII range. -/
def lowerChar (c : Char) : Char :=
  if 65 ≤ c.toNat ∧ c.toNat ≤ 90 then Char.ofNat (c.toNat + 32) else c

/-- ASCII upper-casing of one character, the behaviour of JavaScript
`toUpperCase` on the ASCII range. -/
def upperChar (c : Char) : Char :=
  if 97 ≤ c.toNat ∧ c.toNat ≤ 122 then Char.ofNat (c.toNat - 32) else c

/-- Embedding of JavaScript `s.toLowerCase()`. -/
def toLowerJS (s : String) : String :=
  String.mk (s.data.map lowerChar)

/-- Embedding of JavaScript `s.toUpperCase()`. -/
def toUpperJS (s : String) : String :=
  String.mk (s.data.map upperChar)

/-- The `KLineData` record of `binance.service.ts` (lines 34-47). Fields
hold runtime values exactly as the positional decoder placed them; the
TypeScript field type annotations are erased at runtime and the decoder
performs no conversion. -/
structure KLineData where
  openTime : JValue
  «open» : JValue
  high : JValue
  low : JValue
  close : JValue
  volume : JValue
  closeTime : JValue
  quoteAssetVolume : JValue
  numberOfTrades : JValue
  takerBuyBaseAssetVolume : JValue
  takerBuyQuoteAssetVolume : JValue
  ignore : JValue
deriving DecidableEq, Repr

/-- The positional decoder applied to each wire tuple by `getKlines`
(`binance.service.ts` lines 253-266): `item[i]` for i = 0..11, each value
carried over unchanged (reading past the end of the tuple yields
`undefined`, as in JavaScript). -/
def decodeKline (item : List JValue) : KLineData :=
  { openTime := item.getD 0 .undef
    «open» := item.getD 1 .undef
    high := item.getD 2 .undef
    low := item.getD 3 .undef
    close := item.getD 4 .undef
    volume := item.getD 5 .undef
    closeTime := item.getD 6 .undef
    quoteAssetVolume := item.getD 7 .undef
    numberOfTrades := item.getD 8 .undef
    takerBuyBaseAssetVolume := item.getD 9 .undef
    takerBuyQuoteAssetVolume := item.getD 10 .undef
    ignore := item.getD 11 .undef }

/-- The `map` stage of `getKlines` (line 252): decode every tuple of the
response array. -/
def getKlinesDecode (data : List (List JValue)) : List KLineData :=
  data.map decodeKline

/-- The example 12-element candle tuple used by the specification. -/
def specExampleTuple : List JValue :=
  [.num 1700000000000, .str "50000.00", .str "50100.00", .str "49900.00",
   .str "50050.00", .str "12.5", .num 1700000059999, .str "625625.00",
   .num 150, .str "6.0", .str "300300.00", .str "0"]

/-- JavaScript truthiness of an optional numeric argument: `undefined`
and `0` are falsy, every other number is truthy (`if (startTime)` at
line 237 of `binance.service.ts`). -/
def truthyOptInt (o : Option Int) : Bool :=
  match o with
  | none => false
  | some n => n ≠ 0

/-- The query-parameter object built by `getKlines`
(`binance.service.ts` lines 232-242): `symbol` upper-cased, `interval`
and `limit` copied, `startTime` / `endTime` present only when the
argument is truthy. -/
structure KlinesParams where
  symbol : String
  interval : String
  limit : Int
  startTime : Option Int
  endTime : Option Int
deriving DecidableEq, Repr

/-- Embedding of the parameter-building prefix of `getKlines`
(lines 232-242): starts from `{symbol: symbol.toUpperCase(), interval,
limit}` and adds `startTime` / `endTime` only when truthy. -/
def buildKlinesParams (symbol interval : String) (limit : Int)
    (startTime endTime : Option Int) : KlinesParams :=
  { symbol := toUpperJS symbol
    interval := interval
    limit := limit
    startTime := if truthyOptInt startTime then startTime else none
    endTime := if truthyOptInt endTime then endTime else none }

/-- An HTTP error response as Angular's `HttpClient` delivers it: a
status code and a message. `getKlines` never inspects either field. -/
structure HttpError where
  status : Nat
  message : String
deriving DecidableEq, Repr

/-- Semantics of the RxJS `retry(n)` operator over a deterministic
sequence of attempt outcomes (`attempts i` is what the i-th subscription
of the source HTTP observable produces). Returns the surfaced outcome and
the number of attempts made. With `retriesLeft = 0` the current attempt's
outcome stands, ok or error; otherwise an error triggers an immediate
resubscription. -/
def runRetry (attempts : Nat → Except HttpError (List (List JValue))) :
    Nat → Nat → Except HttpError (List (List JValue)) × Nat
  | 0, i => (attempts i, i + 1)
  | n + 1, i =>
    match attempts i with
    | .ok a => (.ok a, i + 1)
    | .error _ => runRetry attempts n (i + 1)

/-- Outcome of one subscribed `getKlines` pipeline
(`binance.service.ts` lines 244-267): `retry(3)` on the HTTP source, then
`catchError` which only logs and rethrows the same error, then the
positional decode `map`. Returns the surfaced result together with the
number of HTTP attempts made. -/
def getKlinesOutcome (attempts : Nat → Except HttpError (List (List JValue))) :
    Except HttpError (List KLineData) × Nat :=
  let r := runRetry attempts 3 0
  (r.1.map getKlinesDecode, r.2)

/-- Delay, in milliseconds, before the n-th retry of the websocket stream
(`binance.service.ts` line 147): `timer(Math.min(retryCount, 5) * 1000)`. -/
def wsRetryDelayMs (retryCount : Nat) : Nat :=
  min retryCount 5 * 1000

/-- Delay, in milliseconds, applied by `getKlines` between HTTP retry
attempts (`binance.service.ts` line 247): `retry(3)` carries no delay
configuration, so resubscription is immediate. -/
def klinesRetryDelayMs (_retryCount : Nat) : Nat :=
  0

/-- Delay, in milliseconds, of the reconnect scheduled by the websocket
`closeObserver` (`binance.service.ts` line 133): a fixed `timer(3000)`. -/
def wsCloseReconnectDelayMs : Nat :=
  3000

/-- Network cost of an observable: how many HTTP requests a first
subscription triggers, and how many each later subscription to the SAME
observable object triggers. -/
structure ObsCost where
  first : Nat
  later : Nat
deriving DecidableEq, Repr

/-- `this.http.get(...)` is a cold observable: every subscription issues
one HTTP request. -/
def httpGetObs : ObsCost :=
  { first := 1, later := 1 }

/-- `retry(3)` / `catchError` / `map` add no requests on the success
path; they resubscribe or transform only. -/
def pipeThroughObs (o : ObsCost) : ObsCost :=
  o

/-- `shareReplay(1)` multicasts one underlying subscription and replays
the cached value, so later subscriptions to the same observable trigger
no new request. -/
def shareReplayObs (o : ObsCost) : ObsCost :=
  { o with later := 0 }

/-- The observable returned by ONE invocation of `getKlines`
(`binance.service.ts` lines 244-269). The pipeline, including its
`shareReplay(1)`, is built afresh inside the method body on every call;
the class keeps no field mapping request parameters to observables, so
distinct calls never share this object. -/
def getKlinesObsCost : ObsCost :=
  shareReplayObs (pipeThroughObs httpGetObs)

/-- HTTP requests issued when the observable of one `getKlines` call
receives the given number of subscriptions. -/
def requestsForCall (subscribers : Nat) : Nat :=
  match subscribers with
  | 0 => 0
  | n + 1 => getKlinesObsCost.first + n * getKlinesObsCost.later

/-- Total HTTP requests across several `getKlines` calls (one list entry
per call, holding that call's subscription count); each call owns an
independent pipeline. -/
def requestsForCalls (subsPerCall : List Nat) : Nat :=
  (subsPerCall.map requestsForCall).sum

/-- An inbound websocket application frame as the message handler sees it
(`binance.service.ts` lines 157-162): either a falsy value or an object
with an optional event-type field `e`, an optional `result` field, and
the rest of its payload. The handler forwards trade frames whole, so the
payload is kept abstract. -/
structure FrameObj where
  e : Option String
  result : Option JValue
  payload : List (String × JValue)
deriving DecidableEq, Repr

/-- The `next` handler of the websocket subscription
(`binance.service.ts` lines 157-163): a truthy message with
`message.e === 'trade'` is pushed to `_tradeDataStream` (one emitted
event, the message itself); a truthy message with `result !== undefined`
is only logged; everything else is ignored. Returns the list of events
emitted for this frame. -/
def handleMessage (message : Option FrameObj) : List FrameObj :=
  match message with
  | none => []
  | some f => if f.e = some "trade" then [f] else []

/-- Events emitted on `_tradeDataStream` for a sequence of inbound
frames, in arrival order. -/
def processFrames (frames : List (Option FrameObj)) : List FrameObj :=
  frames.flatMap handleMessage

/-- Fan-out of `_tradeDataStream` (an rxjs `Subject`, line 87) to the
given number of registered listeners: every listener receives every
emitted event, unfiltered, in emission order. -/
def fanOut (listeners : Nat) (frames : List (Option FrameObj)) :
    List (List FrameObj) :=
  List.replicate listeners (processFrames frames)

/-- The `ExchangeSymbol` record (`binance.service.ts` lines 57-77).
`any[]` fields are lists of runtime values. -/
structure ExchangeSymbol where
  symbol : String
  status : String
  baseAsset : String
  baseAssetPrecision : Int
  quoteAsset : String
  quotePrecision : Int
  quoteAssetPrecision : Int
  baseCommissionPrecision : Int
  quoteCommissionPrecision : Int
  orderTypes : List String
  icebergAllowed : Bool
  ocoAllowed : Bool
  quoteOrderQtyMarketAllowed : Bool
  isSpotTradingAllowed : Bool
  isMarginTradingAllowed : Bool
  filters : List JValue
  permissions : List String
  defaultSelfTradePreventionMode : String
  allowedSelfTradePreventionModes : List String
deriving DecidableEq, Repr

/-- The `ExchangeInfo` record (`binance.service.ts` lines 49-55). -/
structure ExchangeInfo where
  timezone : String
  serverTime : Int
  rateLimits : List JValue
  exchangeFilters : List JValue
  symbols : List ExchangeSymbol
deriving DecidableEq, Repr

/-- Success path of `getExchangeInfo` (`binance.service.ts` lines
314-327): `map` filters `info.symbols` to `status === 'TRADING'`, `tap`
pushes that filtered list into `_exchangeInfoSubject` (the latest-value
holder behind `exchangeInfo$`), and the same list is what subscribers of
the returned observable receive. Returns (returned list, new value of
the `BehaviorSubject`). -/
def getExchangeInfoSuccess (info : ExchangeInfo) :
    List ExchangeSymbol × List ExchangeSymbol :=
  let tradable := info.symbols.filter (fun s => s.status = "TRADING")
  (tradable, tradable)

/-- Connection state of the service's single websocket field
`_websocketSubject`: `null`, a closed subject, or an open one
(`binance.service.ts` line 86 and the guards at lines 104 and 174). -/
inductive ConnState where
  | noSocket
  | closedSocket
  | openSocket
deriving DecidableEq, Repr

/-- An outbound wire command (`binance.service.ts` lines 182-186): the
method and the set of stream names sent as `params`. The `id` field is a
timestamp the claims never mention, and `params` keeps the set view of
the JavaScript `Set` it is built from. -/
structure WireMessage where
  method : String
  params : Finset String
deriving DecidableEq

/-- Stream name built for a symbol (`binance.service.ts` line 181):
lower-cased symbol with the `@trade` suffix. -/
def streamName (s : String) : String :=
  toLowerJS s ++ "@trade"

/-- `_sendSubscriptionMessage` (`binance.service.ts` lines 170-189):
returns early with no message when the socket is absent or closed,
otherwise emits one message with the given method and the stream names of
the given symbols. -/
def sendSubscriptionMessage (conn : ConnState) (method : String)
    (symbols : Finset String) : List WireMessage :=
  if conn = ConnState.openSocket then
    [{ method := method, params := symbols.image streamName }]
  else []

/-- The lower-cased symbol set `new Set(symbols.map(s => s.toLowerCase()))`
(`binance.service.ts` line 197). -/
def lowerFinset (symbols : List String) : Finset String :=
  (symbols.map toLowerJS).toFinset

/-- `symbolsToSubscribe` of `subscribeToTradeStream`
(`binance.service.ts` lines 198-200): the new lower-cased set minus the
currently subscribed set. -/
def symbolsToSubscribe (active : Finset String) (symbols : List String) :
    Finset String :=
  lowerFinset symbols \ active

/-- `symbolsToUnsubscribe` of `subscribeToTradeStream`
(`binance.service.ts` lines 201-203): the currently subscribed set minus
the new lower-cased set. -/
def symbolsToUnsubscribe (active : Finset String) (symbols : List String) :
    Finset String :=
  active \ lowerFinset symbols

/-- `subscribeToTradeStream` (`binance.service.ts` lines 196-214): sends
an UNSUBSCRIBE for the removals when non-empty and deletes them from the
set, then sends a SUBSCRIBE for the additions when non-empty and adds
them to the set. Returns the new `_subscribedSymbols` and the wire
messages sent, in order. -/
def subscribeToTradeStream (conn : ConnState) (active : Finset String)
    (symbols : List String) : Finset String × List WireMessage :=
  let toSub := symbolsToSubscribe active symbols
  let toUnsub := symbolsToUnsubscribe active symbols
  let unsubMsgs :=
    if 0 < toUnsub.card then sendSubscriptionMessage conn "UNSUBSCRIBE" toUnsub
    else []
  let subMsgs :=
    if 0 < toSub.card then sendSubscriptionMessage conn "SUBSCRIBE" toSub
    else []
  ((active \ toUnsub) ∪ toSub, unsubMsgs ++ subMsgs)

/-- The `openObserver` body (`binance.service.ts` lines 111-125): when
the connection opens, if `_subscribedSymbols` is non-empty, one SUBSCRIBE
is sent for the whole set; the set itself is not touched. -/
def onOpen (active : Finset String) : List WireMessage :=
  if 0 < active.card then
    sendSubscriptionMessage ConnState.openSocket "SUBSCRIBE" active
  else []

/-- Service state relevant to subscription management: the websocket
field and `_subscribedSymbols` (`binance.service.ts` lines 86 and 95). -/
structure SvcState where
  conn : ConnState
  subscribedSymbols : Finset String
deriving DecidableEq

/-- External events driving the subscription state: the socket opening,
the socket closing (the `closeObserver` nulls the field, line 131), and a
caller invoking `subscribeToTradeStream` with a desired symbol list. -/
inductive SvcEvent where
  | wsOpen
  | wsClose
  | setDesiredSymbols (symbols : List String)
deriving DecidableEq

/-- One transition of the service: the new state and the wire messages
sent during the event. -/
def step (st : SvcState) : SvcEvent → SvcState × List WireMessage
  | .wsOpen => ({ st with conn := .openSocket }, onOpen st.subscribedSymbols)
  | .wsClose => ({ st with conn := .noSocket }, [])
  | .setDesiredSymbols symbols =>
    let r := subscribeToTradeStream st.conn st.subscribedSymbols symbols
    ({ st with subscribedSymbols := r.1 }, r.2)

/-- Run a sequence of events, collecting all wire messages in order. -/
def run (st : SvcState) : List SvcEvent → SvcState × List WireMessage
  | [] => (st, [])
  | e :: es =>
    let r := step st e
    let rr := run r.1 es
    (rr.1, r.2 ++ rr.2)

/-- After `subscribeToTradeStream` the subscribed set is exactly the
lower-cased input set, whatever it was before. -/
theorem subscribeToTradeStream_fst (conn : ConnState) (active : Finset String)
    (symbols : List String) :
    (subscribeToTradeStream conn active symbols).1 = lowerFinset symbols := by
  ext x
  simp only [subscribeToTradeStream, symbolsToSubscribe, symbolsToUnsubscribe,
    Finset.mem_union, Finset.mem_sdiff]
  by_cases hx : x ∈ lowerFinset symbols <;> by_cases ha : x ∈ active <;>
    simp [hx, ha]

/-- When the socket is absent or closed, `subscribeToTradeStream` sends
nothing. -/
theorem subscribeToTradeStream_snd_not_open (conn : ConnState)
    (active : Finset String) (symbols : List String)
    (h : conn ≠ ConnState.openSocket) :
    (subscribeToTradeStream conn active symbols).2 = [] := by
  simp [subscribeToTradeStream, sendSubscriptionMessage, h]

/-- When the desired set already equals the subscribed set, no message is
sent. -/
theorem subscribeToTradeStream_snd_same (conn : ConnState)
    (symbols : List String) :
    (subscribeToTradeStream conn (lowerFinset symbols) symbols).2 = [] := by
  simp [subscribeToTradeStream, symbolsToSubscribe, symbolsToUnsubscribe]

/-- Running calls to `subscribeToTradeStream` while disconnected sends no
messages and leaves the set at the lower-cased image of the last call. -/
theorem run_setDesired_disconnected (ds : List (List String))
    (A : Finset String) :
    run ⟨ConnState.noSocket, A⟩ (ds.map SvcEvent.setDesiredSymbols) =
      (⟨ConnState.noSocket, ds.foldl (fun _ syms => lowerFinset syms) A⟩, []) := by
  induction ds generalizing A with
  | nil => rfl
  | cons s ds ih =>
    simp only [List.map_cons, run, step, List.foldl_cons]
    rw [subscribeToTradeStream_fst, subscribeToTradeStream_snd_not_open _ _ _ (by simp)]
    rw [ih (lowerFinset s)]
    simp

/-- Concatenating event sequences runs them in order and concatenates the
sent messages. -/
theorem run_append (st : SvcState) (l1 l2 : List SvcEvent) :
    run st (l1 ++ l2) =
      ((run (run st l1).1 l2).1, (run st l1).2 ++ (run (run st l1).1 l2).2) := by
  induction l1 generalizing st with
  | nil => simp [run]
  | cons e es ih => simp [run, ih]

/-- C2: `getKlines` decodes each 12-element wire tuple positionally —
field 0 to `openTime`, 1 to `open`, 2 to `high`, 3 to `low`, 4 to
`close`, 5 to `volume`, 6 to `closeTime`, 8 to the trade count — with
every value, decimal strings included, carried over unchanged; on the
specification's example tuple this yields exactly the stated candle. -/
theorem claim_C2_positional_decode :
    (∀ item : List JValue,
      (decodeKline item).openTime = item.getD 0 .undef ∧
      (decodeKline item).«open» = item.getD 1 .undef ∧
      (decodeKline item).high = item.getD 2 .undef ∧
      (decodeKline item).low = item.getD 3 .undef ∧
      (decodeKline item).close = item.getD 4 .undef ∧
      (decodeKline item).volume = item.getD 5 .undef ∧
      (decodeKline item).closeTime = item.getD 6 .undef ∧
      (decodeKline item).quoteAssetVolume = item.getD 7 .undef ∧
      (decodeKline item).numberOfTrades = item.getD 8 .undef ∧
      (decodeKline item).takerBuyBaseAssetVolume = item.getD 9 .undef ∧
      (decodeKline item).takerBuyQuoteAssetVolume = item.getD 10 .undef ∧
      (decodeKline item).ignore = item.getD 11 .undef) ∧
    getKlinesDecode [specExampleTuple] =
      [{ openTime := .num 1700000000000
         «open» := .str "50000.00"
         high := .str "50100.00"
         low := .str "49900.00"
         close := .str "50050.00"
         volume := .str "12.5"
         closeTime := .num 1700000059999
         quoteAssetVolume := .str "625625.00"
         numberOfTrades := .num 150
         takerBuyBaseAssetVolume := .str "6.0"
         takerBuyQuoteAssetVolume := .str "300300.00"
         ignore := .str "0" }] :=
  ⟨fun _ => ⟨rfl, rfl, rfl, rfl, rfl, rfl, rfl, rfl, rfl, rfl, rfl, rfl⟩, rfl⟩

/-- C9: a `startTime` (or `endTime`) argument of 0 is dropped from the
outgoing query parameters, because presence is tested with JavaScript
truthiness (`if (startTime)`), so asking for data from the epoch builds
the same request as passing no bound at all. -/
theorem claim_C9_zero_time_omitted (symbol interval : String) (limit : Int)
    (s e : Option Int) :
    (buildKlinesParams symbol interval limit (some 0) e).startTime = none ∧
    (buildKlinesParams symbol interval limit s (some 0)).endTime = none ∧
    buildKlinesParams symbol interval limit (some 0) (some 0) =
      buildKlinesParams symbol interval limit none none := by
  refine ⟨?_, ?_, ?_⟩ <;> simp [buildKlinesParams, truthyOptInt]

/-- C9 witness: concrete instantiation at symbol `btcusdt`. -/
theorem claim_C9_zero_time_omitted_witness :
    (buildKlinesParams "btcusdt" "1m" 500 (some 0) (some 7)).startTime = none ∧
    (buildKlinesParams "btcusdt" "1m" 500 (some 7) (some 0)).endTime = none ∧
    buildKlinesParams "btcusdt" "1m" 500 (some 0) (some 0) =
      buildKlinesParams "btcusdt" "1m" 500 none none :=
  claim_C9_zero_time_omitted "btcusdt" "1m" 500 (some 7) (some 7)

/-- C3 counterexample: the claim says a 4xx-class failure is never
retried and is surfaced immediately as a ValidationError with zero
retries observed. In the code `retry(3)` is status-blind: with a 400
error on the first attempt and a success on the second, the call
surfaces the decoded data after 2 HTTP attempts — the 4xx failure WAS
retried and no error of any kind is surfaced. -/
theorem claim_C3_counterexample :
    (getKlinesOutcome (fun i =>
        if i = 0 then .error ⟨400, "Bad Request"⟩
        else .ok [specExampleTuple])).1 =
      .ok (getKlinesDecode [specExampleTuple]) ∧
    (getKlinesOutcome (fun i =>
        if i = 0 then .error ⟨400, "Bad Request"⟩
        else .ok [specExampleTuple])).2 = 2 :=
  ⟨rfl, rfl⟩

/-- C3 amended: every failure, whatever its status class, is retried up
to 3 times; when all 4 attempts fail, the raw error of the last attempt
is rethrown unchanged (no DataUnavailable or ValidationError wrapper). -/
theorem claim_C3_amended (attempts : Nat → Except HttpError (List (List JValue)))
    (es : Nat → HttpError) (hfail : ∀ i, attempts i = .error (es i)) :
    (getKlinesOutcome attempts).1 = .error (es 3) ∧
    (getKlinesOutcome attempts).2 = 4 := by
  simp [getKlinesOutcome, runRetry, hfail 0, hfail 1, hfail 2, hfail 3,
    Except.map]

/-- C3 witness: four consecutive 500 responses surface that raw error
after 4 attempts. -/
theorem claim_C3_amended_witness :
    (getKlinesOutcome (fun _ => .error ⟨500, "Internal Server Error"⟩)).1 =
      .error ⟨500, "Internal Server Error"⟩ ∧
    (getKlinesOutcome (fun _ => .error ⟨500, "Internal Server Error"⟩)).2 = 4 :=
  claim_C3_amended (fun _ => .error ⟨500, "Internal Server Error"⟩)
    (fun _ => ⟨500, "Internal Server Error"⟩) (fun _ => rfl)

/-- C4 counterexample: the claim says the same bounded backoff policy
governs both the websocket retry delay and the Historical Data Client's
retry delay. The websocket retry waits `min(n,5)*1000` ms, but
`getKlines` uses a delay-free `retry(3)`, so at attempt 1 the two delays
already differ (1000 ms vs 0 ms). -/
theorem claim_C4_counterexample :
    wsRetryDelayMs 1 = 1000 ∧ klinesRetryDelayMs 1 = 0 ∧
    wsRetryDelayMs 1 ≠ klinesRetryDelayMs 1 := by
  decide

/-- C4 amended: the websocket stream's retry delay `min(n,5)*1000` ms is
monotonically non-decreasing in the attempt count and capped at 5000 ms;
it governs only that path — the close-triggered reconnect waits a fixed
3000 ms and the REST client's `retry(3)` applies zero delay. -/
theorem claim_C4_amended (m n : Nat) (h : m ≤ n) :
    wsRetryDelayMs m ≤ wsRetryDelayMs n ∧
    wsRetryDelayMs n ≤ 5000 ∧
    klinesRetryDelayMs n = 0 ∧
    wsCloseReconnectDelayMs = 3000 := by
  refine ⟨?_, ?_, rfl, rfl⟩ <;> simp only [wsRetryDelayMs] <;> omega

/-- C4 witness: attempts 1 and 7. -/
theorem claim_C4_amended_witness :
    wsRetryDelayMs 1 ≤ wsRetryDelayMs 7 ∧
    wsRetryDelayMs 7 ≤ 5000 ∧
    klinesRetryDelayMs 7 = 0 ∧
    wsCloseReconnectDelayMs = 3000 :=
  claim_C4_amended 1 7 (by decide)

/-- C6 counterexample: the claim says two `getCandles` calls with an
identical cache key, the second issued while the first is in flight,
produce at most one network request between them. Each `getKlines` call
builds its own pipeline (`shareReplay(1)` is per returned observable and
the class keeps no key-indexed cache), so two identical-key calls with
one subscriber each issue 2 HTTP requests. -/
theorem claim_C6_counterexample :
    requestsForCalls [1, 1] = 2 ∧ ¬ requestsForCalls [1, 1] ≤ 1 := by
  decide

/-- C6 amended: request sharing exists only per returned observable —
any number of subscriptions to the observable of ONE `getKlines` call
issue exactly one HTTP request, while k identical-key calls with one
subscriber each issue exactly k requests. -/
theorem claim_C6_amended (n k : Nat) :
    requestsForCall (n + 1) = 1 ∧
    requestsForCalls (List.replicate k 1) = k := by
  constructor
  · simp [requestsForCall, getKlinesObsCost, shareReplayObs, pipeThroughObs,
      httpGetObs]
  · induction k with
    | zero => rfl
    | succ k ih =>
      simp only [List.replicate_succ, requestsForCalls, List.map_cons,
        List.sum_cons] at ih ⊢
      rw [ih]
      simp [requestsForCall, getKlinesObsCost, shareReplayObs, pipeThroughObs,
        httpGetObs, Nat.add_comm]

/-- C7: an inbound frame produces an event delivered to every listener
exactly when it is truthy and its event-type field `e` equals `trade`;
acknowledgment frames (with a `result` field) and unrecognized shapes
produce no event and no error; the fan-out hands every listener the same
event list in arrival order, with no per-listener filtering. -/
theorem claim_C7_fanout (frames : List (Option FrameObj)) (listeners : Nat) :
    fanOut listeners frames = List.replicate listeners (processFrames frames) ∧
    (∀ received ∈ fanOut listeners frames, received = processFrames frames) ∧
    (∀ l1 l2 : List (Option FrameObj),
      processFrames (l1 ++ l2) = processFrames l1 ++ processFrames l2) ∧
    (∀ f : FrameObj, handleMessage (some f) = [f] ↔ f.e = some "trade") ∧
    (∀ f : FrameObj, f.e ≠ some "trade" → handleMessage (some f) = []) ∧
    handleMessage none = [] := by
  refine ⟨rfl, ?_, ?_, ?_, ?_, rfl⟩
  · intro received hr
    exact List.eq_of_mem_replicate hr
  · intro l1 l2
    simp [processFrames]
  · intro f
    constructor
    · intro hf
      by_cases he : f.e = some "trade"
      · exact he
      · simp [handleMessage, he] at hf
    · intro he
      simp [handleMessage, he]
  · intro f he
    simp [handleMessage, he]

/-- C7 witness: one trade frame, one acknowledgment frame and one falsy
frame, fanned out to two listeners. -/
theorem claim_C7_fanout_witness :
    fanOut 2 [some ⟨some "trade", none, []⟩, some ⟨none, some (.num 1), []⟩, none] =
      List.replicate 2 (processFrames
        [some ⟨some "trade", none, []⟩, some ⟨none, some (.num 1), []⟩, none]) ∧
    (∀ received ∈ fanOut 2
        [some ⟨some "trade", none, []⟩, some ⟨none, some (.num 1), []⟩, none],
      received = processFrames
        [some ⟨some "trade", none, []⟩, some ⟨none, some (.num 1), []⟩, none]) ∧
    (∀ l1 l2 : List (Option FrameObj),
      processFrames (l1 ++ l2) = processFrames l1 ++ processFrames l2) ∧
    (∀ f : FrameObj, handleMessage (some f) = [f] ↔ f.e = some "trade") ∧
    (∀ f : FrameObj, f.e ≠ some "trade" → handleMessage (some f) = []) ∧
    handleMessage none = [] :=
  claim_C7_fanout
    [some ⟨some "trade", none, []⟩, some ⟨none, some (.num 1), []⟩, none] 2

/-- C8: the success path of `getExchangeInfo` returns exactly the
directory entries whose `status` is `TRADING`, pushes that same filtered
list into the latest-value holder behind `exchangeInfo$`, and the
published list equals the returned list. -/
theorem claim_C8_instruments (info : ExchangeInfo) :
    (getExchangeInfoSuccess info).1 =
      info.symbols.filter (fun s => s.status = "TRADING") ∧
    (getExchangeInfoSuccess info).2 = (getExchangeInfoSuccess info).1 ∧
    ∀ s : ExchangeSymbol,
      s ∈ (getExchangeInfoSuccess info).1 ↔
        s ∈ info.symbols ∧ s.status = "TRADING" := by
  refine ⟨rfl, rfl, ?_⟩
  intro s
  simp [getExchangeInfoSuccess, List.mem_filter]

/-- C10: after any `subscribeToTradeStream(symbols)` call the internal
subscribed-symbol set equals exactly the lower-cased set of `symbols`,
whatever the previous set and connection state; when the socket is
absent or closed the wire commands are skipped, yet the set is still
mutated. -/
theorem claim_C10_set_invariant (conn : ConnState) (active : Finset String)
    (symbols : List String) :
    (subscribeToTradeStream conn active symbols).1 = lowerFinset symbols ∧
    (conn ≠ ConnState.openSocket →
      (subscribeToTradeStream conn active symbols).2 = []) :=
  ⟨subscribeToTradeStream_fst conn active symbols,
   fun h => subscribeToTradeStream_snd_not_open conn active symbols h⟩

/-- C10 witness: a disconnected call replacing `btcusdt` with `ethusdt`. -/
theorem claim_C10_set_invariant_witness :
    (subscribeToTradeStream ConnState.noSocket {"btcusdt"} ["ETHUSDT"]).1 =
      lowerFinset ["ETHUSDT"] ∧
    (ConnState.noSocket ≠ ConnState.openSocket →
      (subscribeToTradeStream ConnState.noSocket {"btcusdt"} ["ETHUSDT"]).2 =
        []) :=
  claim_C10_set_invariant ConnState.noSocket {"btcusdt"} ["ETHUSDT"]

/-- C1: `subscribeToTradeStream` reconciles the lower-case-normalized
desired set against the subscribed set: the additions are desired minus
active, the removals active minus desired, the two are disjoint; when
the normalized desired set equals the active set both deltas are empty
and no wire message is sent; and a second call with the same symbols
sends nothing. (The active set of the running service only ever holds
lower-cased entries, which is the hypothesis.) -/
theorem claim_C1_reconciliation (active : Finset String)
    (desired : List String) (c c' : ConnState)
    (h : ∀ s ∈ active, toLowerJS s = s) :
    symbolsToSubscribe active desired =
      lowerFinset desired \ active.image toLowerJS ∧
    symbolsToUnsubscribe active desired =
      active.image toLowerJS \ lowerFinset desired ∧
    Disjoint (symbolsToSubscribe active desired)
      (symbolsToUnsubscribe active desired) ∧
    (lowerFinset desired = active.image toLowerJS →
      symbolsToSubscribe active desired = ∅ ∧
      symbolsToUnsubscribe active desired = ∅ ∧
      (subscribeToTradeStream c active desired).2 = []) ∧
    (subscribeToTradeStream c'
      (subscribeToTradeStream c active desired).1 desired).2 = [] := by
  have himg : active.image toLowerJS = active := by
    have heq : active.image toLowerJS = active.image id :=
      Finset.image_congr fun x hx => h x (Finset.mem_coe.mp hx)
    rw [heq, Finset.image_id]
  refine ⟨by rw [himg]; rfl, by rw [himg]; rfl, ?_, ?_, ?_⟩
  · simp only [symbolsToSubscribe, symbolsToUnsubscribe]
    exact disjoint_sdiff_sdiff
  · intro heq
    rw [himg] at heq
    refine ⟨?_, ?_, ?_⟩
    · simp [symbolsToSubscribe, heq]
    · simp [symbolsToUnsubscribe, heq]
    · simp [subscribeToTradeStream, symbolsToSubscribe, symbolsToUnsubscribe,
        heq]
  · rw [subscribeToTradeStream_fst]
    exact subscribeToTradeStream_snd_same c' desired

/-- C1 witness: active set `{btcusdt}`, desired symbols `[ETHUSDT]`, on
an open connection. -/
theorem claim_C1_reconciliation_witness :
    (∀ s ∈ ({"btcusdt"} : Finset String), toLowerJS s = s) ∧
    (symbolsToSubscribe {"btcusdt"} ["ETHUSDT"] =
        lowerFinset ["ETHUSDT"] \ Finset.image toLowerJS {"btcusdt"} ∧
      symbolsToUnsubscribe {"btcusdt"} ["ETHUSDT"] =
        Finset.image toLowerJS {"btcusdt"} \ lowerFinset ["ETHUSDT"] ∧
      Disjoint (symbolsToSubscribe {"btcusdt"} ["ETHUSDT"])
        (symbolsToUnsubscribe {"btcusdt"} ["ETHUSDT"]) ∧
      (lowerFinset ["ETHUSDT"] = Finset.image toLowerJS {"btcusdt"} →
        symbolsToSubscribe {"btcusdt"} ["ETHUSDT"] = ∅ ∧
        symbolsToUnsubscribe {"btcusdt"} ["ETHUSDT"] = ∅ ∧
        (subscribeToTradeStream ConnState.openSocket {"btcusdt"}
          ["ETHUSDT"]).2 = []) ∧
      (subscribeToTradeStream ConnState.openSocket
        (subscribeToTradeStream ConnState.openSocket {"btcusdt"}
          ["ETHUSDT"]).1 ["ETHUSDT"]).2 = []) :=
  ⟨by decide,
   claim_C1_reconciliation {"btcusdt"} ["ETHUSDT"] ConnState.openSocket
     ConnState.openSocket (by decide)⟩

/-- C5 counterexample: the claim says that after a drop and a
reconnection exactly one SUBSCRIBE is sent on entering the open state.
Starting from an open connection subscribed to `btcusdt`, dropping,
emptying the desired set while disconnected, and reopening sends no wire
message at all — zero SUBSCRIBE commands, not one. -/
theorem claim_C5_counterexample :
    (run ⟨ConnState.openSocket, {"btcusdt"}⟩
      [SvcEvent.wsClose, SvcEvent.setDesiredSymbols [], SvcEvent.wsOpen]).2 =
      [] := by
  decide

/-- C5 amended: after a drop, any number of `subscribeToTradeStream`
calls made while disconnected, and a reconnection, the whole episode
sends at most one wire command: exactly one SUBSCRIBE covering the full
current desired set (the lower-cased set of the last call, or the
pre-drop set when no call was made) when that set is non-empty, and
nothing when it is empty. -/
theorem claim_C5_amended (A : Finset String) (ds : List (List String)) :
    (run ⟨ConnState.openSocket, A⟩
        ([SvcEvent.wsClose] ++ ds.map SvcEvent.setDesiredSymbols ++
          [SvcEvent.wsOpen])).1 =
      ⟨ConnState.openSocket, ds.foldl (fun _ syms => lowerFinset syms) A⟩ ∧
    (run ⟨ConnState.openSocket, A⟩
        ([SvcEvent.wsClose] ++ ds.map SvcEvent.setDesiredSymbols ++
          [SvcEvent.wsOpen])).2 =
      (if 0 < (ds.foldl (fun _ syms => lowerFinset syms) A).card then
        [{ method := "SUBSCRIBE",
           params :=
             (ds.foldl (fun _ syms => lowerFinset syms) A).image streamName }]
      else []) := by
  have hassoc :
      [SvcEvent.wsClose] ++ ds.map SvcEvent.setDesiredSymbols ++
          [SvcEvent.wsOpen] =
        SvcEvent.wsClose ::
          (ds.map SvcEvent.setDesiredSymbols ++ [SvcEvent.wsOpen]) := by
    simp
  rw [hassoc]
  simp only [run, step]
  rw [run_append, run_setDesired_disconnected ds A]
  simp [run, step, onOpen, sendSubscriptionMessage]

end CryptoPrice
